import Mathlib

/-!
Shallow embedding of the monthly financial aggregation engine of
`src/app.py` (cattle-fin-mobile).

Modelling choices:
* Python strings that get sliced (the `"YYYY-MM"` month keys) are modelled as
  `List Char`; strings only compared for equality (category, flow type, notes)
  are Lean `String`s.
* SQLite `REAL` monetary amounts are modelled as exact rationals `ℚ`; the
  floating-point behaviour of the real code is analysed separately by the
  binary64 fragment near the end of the file.
* SQLite `INTEGER` headcounts are modelled as `ℤ`.
* A pandas frame of transactions is a `List Transaction` in row order; a
  missing value (`NaN` / `pd.NA`) is `Option.none`.
-/

/-- One row of the `finance` table (app.py, `init_db`, lines 36-46). -/
structure Transaction where
  date : List Char
  month : List Char
  category : String
  type : String
  amount : ℚ
  note : String
  deriving DecidableEq, Repr

/-- One row of the `headcount` table (app.py, `init_db`, lines 48-54). -/
structure HRecord where
  month : List Char
  headcount : Int
  note : String
  deriving DecidableEq, Repr

/-- Python `month[:4]` (app.py line 106): the year part of a month key. -/
def txYear (t : Transaction) : List Char := t.month.take 4

/-- Python `int(s)` on a list of digit characters (used by
`month[5:7].astype(int)`); on non-digit input the real code would raise,
the theorems only ever apply this to digit characters. -/
def strToNat (cs : List Char) : Nat := cs.foldl (fun a c => a * 10 + (c.toNat - 48)) 0

/-- Python `int(month[5:7])` (app.py line 107). -/
def txMonthNum (t : Transaction) : Nat := strToNat ((t.month.drop 5).take 2)

/-- The (year, month_num) part of the grouping key of app.py line 108. -/
def sKey (t : Transaction) : List Char × Nat := (txYear t, txMonthNum t)

/-- The full groupby key (year, month_num, type) of app.py line 108. -/
def gkey (t : Transaction) : (List Char × Nat) × String := (sKey t, t.type)

/-- The grouped sums of
`df2.groupby(["year", "month_num", "type"])["amount"].sum()` (app.py
line 108), computed as a keyed accumulator folded over the rows in order.
`unstack(fill_value=0)` together with `summary.get(col, 0)` (line 109)
makes a key with no matching rows read as `0`, which is the initial value
of the accumulator. -/
def groupFun (ts : List Transaction) : (List Char × Nat) × String → ℚ :=
  ts.foldl (fun g t => fun k => if gkey t = k then g k + t.amount else g k) (fun _ => 0)

/-- Ascending order on the (year, month_num) grouping keys: years compare
lexicographically (as Python strings do), ties broken by month number.
This is the sort order pandas gives the groupby index. -/
def keyLE (a b : List Char × Nat) : Prop :=
  a.1 < b.1 ∨ (a.1 = b.1 ∧ a.2 ≤ b.2)

instance : DecidableRel keyLE := fun a b =>
  inferInstanceAs (Decidable (a.1 < b.1 ∨ (a.1 = b.1 ∧ a.2 ≤ b.2)))

instance : IsTotal (List Char × Nat) keyLE := by
  constructor
  intro a b
  rcases lt_trichotomy a.1 b.1 with h | h | h
  · exact Or.inl (Or.inl h)
  · rcases le_total a.2 b.2 with h2 | h2
    · exact Or.inl (Or.inr ⟨h, h2⟩)
    · exact Or.inr (Or.inr ⟨h.symm, h2⟩)
  · exact Or.inr (Or.inl h)

instance : IsTrans (List Char × Nat) keyLE := by
  constructor
  intro a b c hab hbc
  rcases hab with h1 | ⟨e1, l1⟩
  · rcases hbc with h2 | ⟨e2, l2⟩
    · exact Or.inl (h1.trans h2)
    · exact Or.inl (lt_of_lt_of_le h1 (le_of_eq e2))
  · rcases hbc with h2 | ⟨e2, l2⟩
    · exact Or.inl (lt_of_le_of_lt (le_of_eq e1) h2)
    · exact Or.inr ⟨e1.trans e2, l1.trans l2⟩

instance : IsAntisymm (List Char × Nat) keyLE := by
  constructor
  intro a b hab hba
  rcases hab with h1 | ⟨e1, l1⟩
  · rcases hba with h2 | ⟨e2, l2⟩
    · exact absurd h2 (lt_asymm h1)
    · exact absurd e2.symm (ne_of_lt h1)
  · rcases hba with h2 | ⟨e2, l2⟩
    · exact absurd e1 (ne_of_gt h2)
    · exact Prod.ext e1 (le_antisymm l1 l2)

/-- The distinct (year, month_num) keys occurring among the transactions,
sorted ascending: the index of the summary frame after
`unstack` / `reset_index` (app.py lines 108-110). -/
def summaryKeys (ts : List Transaction) : List (List Char × Nat) :=
  List.insertionSort keyLE ((ts.map sKey).dedup)

/-- Python f-string `f"{int(x):02d}"` for `0 ≤ x ≤ 99` (app.py line 113). -/
def format02 (n : Nat) : List Char :=
  if n < 10 then ['0', Nat.digitChar n]
  else [Nat.digitChar (n / 10), Nat.digitChar (n % 10)]

/-- Rebuild of the month key, `year + "-" + f"{int(m):02d}"` (app.py line 113). -/
def buildMonthKey (y : List Char) (m : Nat) : List Char := y ++ '-' :: format02 m

/-- The headcount lookup `dict(zip(head_df["month"], head_df["headcount"]))`
followed by `.map` (app.py lines 117-121): the last record for a month wins
(a Python dict built left to right keeps the last binding), a missing month
reads as `NaN`, i.e. `none`. -/
def headMap (hs : List HRecord) (k : List Char) : Option Int :=
  (hs.reverse.find? (fun r => decide (r.month = k))).map (·.headcount)

/-- The per-head value of app.py line 124: `net / headcount` when
`pd.notna(headcount) and headcount != 0`, otherwise `pd.NA`. -/
def perHeadVal (net : ℚ) (hc : Option Int) : Option ℚ :=
  match hc with
  | some h => if h ≠ 0 then some (net / (h : ℚ)) else none
  | none => none

/-- One row of the summary frame built in app.py lines 104-124. -/
structure Row where
  year : List Char
  month_num : Nat
  income : ℚ
  expense : ℚ
  net : ℚ
  month_key : List Char
  headcount : Option Int
  per_head : Option ℚ
  deriving DecidableEq, Repr

/-- Builds the summary row of one (year, month_num) key (app.py lines
108-124): income column `収入`, expense column `支出`,
`純収支 = 収入 − 支出`, the rebuilt `month_key`, the merged headcount and
the per-head value. -/
def mkRow (ts : List Transaction) (hs : List HRecord) (k : List Char × Nat) : Row :=
  let inc := groupFun ts (k, "収入")
  let ex := groupFun ts (k, "支出")
  let mkey := buildMonthKey k.1 k.2
  { year := k.1, month_num := k.2, income := inc, expense := ex, net := inc - ex,
    month_key := mkey, headcount := headMap hs mkey,
    per_head := perHeadVal (inc - ex) (headMap hs mkey) }

/-- The summary frame of app.py lines 104-124: one row per (year, month_num)
key present among the transactions, keys ascending. -/
def fullSummary (ts : List Transaction) (hs : List HRecord) : List Row :=
  (summaryKeys ts).map (mkRow ts hs)

/-- The exact mathematical sum of `amount` over the transactions of one
(year, month_num) key having the given flow type. -/
def amtSum (ts : List Transaction) (k : List Char × Nat) (ty : String) : ℚ :=
  ((ts.filter (fun t => decide (sKey t = k ∧ t.type = ty))).map Transaction.amount).sum

/-- The function filter_by_year of app.py lines 87-93: an empty frame or an
empty selection gives an empty frame, otherwise the rows whose year is
among the selected years. -/
def filterByYear (df : List Transaction) (selected : List (List Char)) : List Transaction :=
  if df.isEmpty || selected.isEmpty then []
  else df.filter (fun t => decide (txYear t ∈ selected))

/-- Python sorted(selected_years)[-1] and [-2] (app.py lines 167-169): the
two most recent of the selected years, most recent first. -/
def lastTwo (selected : List (List Char)) : List Char × List Char :=
  match (List.insertionSort (fun a b => a ≤ b) selected).reverse with
  | c :: p :: _ => (c, p)
  | _ => ([], [])

/-- The year-over-year series of app.py lines 165-193: with fewer than two
selected years no trace is produced at all; otherwise, over the sorted
months present in both the most recent ("current") and the second most
recent ("prior") selected year's summary rows, the percent change
(cur / prev − 1) × 100 is computed, skipping months whose prior net
balance is 0. -/
def yoySeries (rows : List Row) (selected : List (List Char)) : List (Nat × ℚ) :=
  if selected.length < 2 then []
  else
    let cp := lastTwo selected
    let curRows := rows.filter (fun r => decide (r.year = cp.1))
    let prevRows := rows.filter (fun r => decide (r.year = cp.2))
    let common := List.insertionSort (fun a b => a ≤ b)
      (((curRows.map Row.month_num).filter
          (fun m => decide (m ∈ prevRows.map Row.month_num))).dedup)
    common.filterMap (fun m =>
      match prevRows.find? (fun r => decide (r.month_num = m)),
            curRows.find? (fun r => decide (r.month_num = m)) with
      | some pr, some cr =>
          if pr.net = 0 then none else some (m, (cr.net / pr.net - 1) * 100)
      | _, _ => none)

/-- ForecastPoint of spec §3. -/
structure ForecastPoint where
  month : Nat
  projected : ℚ
  is_realized : Bool
  deriving DecidableEq, Repr

/-- Modelled from the spec: the Forecast Generator of spec §4.4 is described
in the specification but absent from src/app.py, so it is taken from the
spec's words. For each calendar month 1-12, the unweighted arithmetic mean
of net_balance across all past years (year < current_year, years compared
as "YYYY" strings) having a summary record for that month; a month with no
past record produces no point; a point is realized exactly when its month
is at or before the current calendar month, the mean being the same
formula on both sides of the split. -/
def forecastSeries (rows : List Row) (currentYear : List Char) (currentMonth : Nat) :
    List ForecastPoint :=
  let past := rows.filter (fun r => decide (r.year < currentYear))
  (List.range 12).filterMap (fun i =>
    let m := i + 1
    let vals := (past.filter (fun r => decide (r.month_num = m))).map Row.net
    if vals.isEmpty then none
    else some ⟨m, vals.sum / (vals.length : ℚ), decide (m ≤ currentMonth)⟩)

/-- The response object of compute_report (spec §6): the monthly summaries
with per-head values, the year-over-year series and the forecast series. -/
structure Report where
  summaries : List Row
  yoy : List (Nat × ℚ)
  forecast : List ForecastPoint
  deriving DecidableEq, Repr

/-- The operation compute_report of spec §6, wired the way app.py uses its
summary frame: one summary is computed from the transaction snapshot and
every derived series is a function of it. -/
def computeReport (ts : List Transaction) (hs : List HRecord)
    (selected : List (List Char)) (currentYear : List Char) (currentMonth : Nat) : Report :=
  let rows := fullSummary ts hs
  { summaries := rows, yoy := yoySeries rows selected,
    forecast := forecastSeries rows currentYear currentMonth }

/-- The function upsert_headcount of app.py lines 69-79: count the rows
having the month key; if one exists, UPDATE headcount and note in place,
otherwise INSERT one new row at the end. -/
def upsertHeadcount (tbl : List HRecord) (k : List Char) (v : Int) (n : String) :
    List HRecord :=
  if 0 < tbl.countP (fun r => decide (r.month = k)) then
    tbl.map (fun r => if r.month = k then { r with headcount := v, note := n } else r)
  else tbl ++ [⟨k, v, n⟩]

/-- At most one headcount row per month key: the PRIMARY KEY invariant of
the headcount table (app.py lines 48-54). -/
def uniqueMonths (tbl : List HRecord) : Prop := (tbl.map HRecord.month).Nodup

instance (tbl : List HRecord) : Decidable (uniqueMonths tbl) :=
  inferInstanceAs (Decidable ((tbl.map HRecord.month).Nodup))

/-- The row of one month key (SELECT ... WHERE month = ?, unique under
uniqueMonths). -/
def lookupRec (tbl : List HRecord) (k : List Char) : Option HRecord :=
  tbl.find? (fun r => decide (r.month = k))

/-- Concrete sample transaction: 1000 yen of feed expense in 2024-01. -/
def sampleTx : Transaction :=
  { date := ['2','0','2','4','-','0','1','-','1','5'],
    month := ['2','0','2','4','-','0','1'],
    category := "飼料費", type := "支出", amount := 1000, note := "" }

/-- Concrete sample headcount record: 10 animals in 2024-01. -/
def sampleHc : HRecord := { month := ['2','0','2','4','-','0','1'], headcount := 10, note := "" }

/-- The first summary row of one year and month: how app.py's
`set_index("month_num")` frames are read with `.at`. -/
def rowOf (rows : List Row) (y : List Char) (m : Nat) : Option Row :=
  (rows.filter (fun r => decide (r.year = y))).find? (fun r => decide (r.month_num = m))

/-- Concrete summary rows of two years for the year-over-year witness. -/
def yoyRowA : Row :=
  ⟨['2','0','2','3'], 1, 3000, 1000, 2000, ['2','0','2','3','-','0','1'], none, none⟩

/-- Concrete summary row of the more recent year for the witness. -/
def yoyRowB : Row :=
  ⟨['2','0','2','4'], 1, 5000, 2000, 3000, ['2','0','2','4','-','0','1'], none, none⟩

/-- The past-year net balances recorded for one calendar month (spec §4.4). -/
def pastNets (rows : List Row) (cy : List Char) (m : Nat) : List ℚ :=
  ((rows.filter (fun r => decide (r.year < cy))).filter
    (fun r => decide (r.month_num = m))).map Row.net

/-- Concrete sample transaction: 3000 yen of cattle-sale income in 2024-01. -/
def sampleTx2 : Transaction :=
  { date := ['2','0','2','4','-','0','1','-','2','0'],
    month := ['2','0','2','4','-','0','1'],
    category := "牛売上", type := "収入", amount := 3000, note := "" }

/-- The ten digit characters. -/
def digitChars : List Char := ['0','1','2','3','4','5','6','7','8','9']

/-- Concrete invalid transaction: a negative amount, which spec §7 says the
engine must reject before aggregation. -/
def badTx : Transaction :=
  { date := ['2','0','2','4','-','0','1','-','0','5'],
    month := ['2','0','2','4','-','0','1'],
    category := "飼料費", type := "支出", amount := -500, note := "" }

/-- Concrete headcount record with a negative headcount, which spec §7
says the engine must reject. -/
def negHc : HRecord := { month := ['2','0','2','4','-','0','1'], headcount := -2, note := "" }

/-- Round-to-nearest, ties to even, of a rational to an integer. -/
def rne (q : ℚ) : ℤ :=
  let n := ⌊q⌋
  if q - n < 1/2 then n
  else if 1/2 < q - n then n + 1
  else if n % 2 = 0 then n else n + 1

/-- Binary64 rounding of a rational lying in the binade [2^e, 2^(e+1)):
round to 53 significant bits, i.e. to the nearest multiple of 2^(e−52)
with ties to even. This is the arithmetic the real pipeline performs on
amounts: SQLite REAL and the pandas float64 summation of app.py line 108,
whereas the engine embedding above models amounts exactly over ℚ. -/
def fl64 (e : ℤ) (q : ℚ) : ℚ := ((rne (q * 2 ^ (52 - e)) : ℤ) : ℚ) / 2 ^ (52 - e)

theorem foldl_group_apply (ts : List Transaction) :
    ∀ (f : (List Char × Nat) × String → ℚ) (q : (List Char × Nat) × String),
      ts.foldl (fun g t => fun k => if gkey t = k then g k + t.amount else g k) f q
        = f q + ((ts.filter (fun t => decide (gkey t = q))).map Transaction.amount).sum := by
  induction ts with
  | nil => intro f q; simp
  | cons t ts ih =>
    intro f q
    rw [List.foldl_cons, ih]
    by_cases h : gkey t = q
    · simp [List.filter_cons, h, add_assoc]
    · simp [List.filter_cons, h]

theorem groupFun_eq_amtSum (ts : List Transaction) (k : List Char × Nat) (ty : String) :
    groupFun ts (k, ty) = amtSum ts k ty := by
  unfold groupFun
  rw [foldl_group_apply]
  rw [amtSum, zero_add]
  congr 2
  apply List.filter_congr
  intro t _
  simp [gkey, Prod.ext_iff]

theorem mem_fullSummary (ts : List Transaction) (hs : List HRecord) (r : Row) :
    r ∈ fullSummary ts hs ↔ ∃ k ∈ summaryKeys ts, mkRow ts hs k = r := by
  rw [fullSummary, List.mem_map]

theorem mem_summaryKeys (ts : List Transaction) (k : List Char × Nat) :
    k ∈ summaryKeys ts ↔ ∃ t ∈ ts, sKey t = k := by
  rw [summaryKeys, List.mem_insertionSort, List.mem_dedup, List.mem_map]

theorem mkRow_year (ts : List Transaction) (hs : List HRecord) (k : List Char × Nat) :
    (mkRow ts hs k).year = k.1 := rfl

theorem mkRow_month_num (ts : List Transaction) (hs : List HRecord) (k : List Char × Nat) :
    (mkRow ts hs k).month_num = k.2 := rfl

theorem mkRow_income (ts : List Transaction) (hs : List HRecord) (k : List Char × Nat) :
    (mkRow ts hs k).income = groupFun ts (k, "収入") := rfl

theorem mkRow_expense (ts : List Transaction) (hs : List HRecord) (k : List Char × Nat) :
    (mkRow ts hs k).expense = groupFun ts (k, "支出") := rfl

theorem mkRow_net (ts : List Transaction) (hs : List HRecord) (k : List Char × Nat) :
    (mkRow ts hs k).net = groupFun ts (k, "収入") - groupFun ts (k, "支出") := rfl

theorem mkRow_month_key (ts : List Transaction) (hs : List HRecord) (k : List Char × Nat) :
    (mkRow ts hs k).month_key = buildMonthKey k.1 k.2 := rfl

theorem mkRow_headcount (ts : List Transaction) (hs : List HRecord) (k : List Char × Nat) :
    (mkRow ts hs k).headcount = headMap hs (buildMonthKey k.1 k.2) := rfl

theorem mkRow_per_head (ts : List Transaction) (hs : List HRecord) (k : List Char × Nat) :
    (mkRow ts hs k).per_head
      = perHeadVal ((mkRow ts hs k).net) (headMap hs (buildMonthKey k.1 k.2)) := rfl

/-- C1: the monthly summary has exactly one row per (year, month) group
present in the input — a (year, month) pair with no transactions has no
row at all — and on every row income is the exact sum of the group's
收入-typed (income) amounts, expense the exact sum of its 支出-typed
(expense) amounts, and net = income − expense. -/
theorem C1_monthly_summary_groups (ts : List Transaction) (hs : List HRecord)
    (y : List Char) (m : Nat) :
    ((∃ r ∈ fullSummary ts hs, r.year = y ∧ r.month_num = m) ↔
      ∃ t ∈ ts, sKey t = (y, m))
    ∧ ∀ r ∈ fullSummary ts hs,
        r.income = amtSum ts (r.year, r.month_num) "収入" ∧
        r.expense = amtSum ts (r.year, r.month_num) "支出" ∧
        r.net = r.income - r.expense := by
  constructor
  · constructor
    · rintro ⟨r, hr, hy, hm⟩
      obtain ⟨k, hk, rfl⟩ := (mem_fullSummary ts hs r).mp hr
      rw [mkRow_year] at hy
      rw [mkRow_month_num] at hm
      obtain ⟨t, ht, hts⟩ := (mem_summaryKeys ts k).mp hk
      exact ⟨t, ht, by rw [hts]; exact Prod.ext hy hm⟩
    · rintro ⟨t, ht, hts⟩
      exact ⟨mkRow ts hs (y, m),
        (mem_fullSummary ts hs _).mpr ⟨(y, m), (mem_summaryKeys ts _).mpr ⟨t, ht, hts⟩, rfl⟩,
        rfl, rfl⟩
  · intro r hr
    obtain ⟨k, hk, rfl⟩ := (mem_fullSummary ts hs r).mp hr
    refine ⟨?_, ?_, rfl⟩
    · rw [mkRow_income, mkRow_year, mkRow_month_num, Prod.mk.eta]
      exact groupFun_eq_amtSum ts k "収入"
    · rw [mkRow_expense, mkRow_year, mkRow_month_num, Prod.mk.eta]
      exact groupFun_eq_amtSum ts k "支出"

theorem C1_monthly_summary_groups_witness :
    mkRow [sampleTx] [] (['2','0','2','4'], 1) ∈ fullSummary [sampleTx] []
    ∧ (mkRow [sampleTx] [] (['2','0','2','4'], 1)).net
        = (mkRow [sampleTx] [] (['2','0','2','4'], 1)).income
          - (mkRow [sampleTx] [] (['2','0','2','4'], 1)).expense := by
  have hmem : mkRow [sampleTx] [] (['2','0','2','4'], 1) ∈ fullSummary [sampleTx] [] :=
    List.mem_map_of_mem _ (by decide)
  exact ⟨hmem, ((C1_monthly_summary_groups [sampleTx] [] ['2','0','2','4'] 1).2 _ hmem).2.2⟩

theorem headMap_mem (hs : List HRecord) (k : List Char) (h : Int)
    (hh : headMap hs k = some h) : ∃ r ∈ hs, r.headcount = h := by
  rw [headMap] at hh
  obtain ⟨r, hr, hrh⟩ := Option.map_eq_some'.mp hh
  exact ⟨r, List.mem_reverse.mp (List.mem_of_find?_eq_some hr), hrh⟩

/-- C2: on every summary row the per-head value is present exactly when the
headcount lookup of the row's month key finds a record with headcount > 0,
and then equals net / headcount exactly; an absent headcount record or a
headcount of 0 gives an absent per-head value, and the computation is
total, so no error is possible. (The hypothesis restates the data-model
invariant that recorded headcounts are non-negative.) -/
theorem C2_per_head_normalization (ts : List Transaction) (hs : List HRecord)
    (hnn : ∀ h ∈ hs, 0 ≤ h.headcount) :
    ∀ r ∈ fullSummary ts hs,
      ((∃ v, r.per_head = some v) ↔ ∃ h, headMap hs r.month_key = some h ∧ 0 < h)
      ∧ (∀ h : Int, headMap hs r.month_key = some h → 0 < h →
          r.per_head = some (r.net / (h : ℚ)))
      ∧ (headMap hs r.month_key = none → r.per_head = none)
      ∧ (headMap hs r.month_key = some 0 → r.per_head = none) := by
  intro r hr
  obtain ⟨k, hk, rfl⟩ := (mem_fullSummary ts hs r).mp hr
  rw [mkRow_per_head, mkRow_month_key]
  cases hmo : headMap hs (buildMonthKey k.1 k.2) with
  | none => simp [perHeadVal]
  | some h =>
    have hge : 0 ≤ h := by
      obtain ⟨r0, hr0, hr0h⟩ := headMap_mem hs _ h hmo
      exact hr0h ▸ hnn r0 hr0
    by_cases hz : h = 0
    · subst hz
      simp [perHeadVal]
    · have hpos : 0 < h := lt_of_le_of_ne hge (Ne.symm hz)
      simp [perHeadVal, hz, hpos]

theorem C2_per_head_normalization_witness :
    (mkRow [sampleTx] [sampleHc] (['2','0','2','4'], 1)).per_head
      = some ((mkRow [sampleTx] [sampleHc] (['2','0','2','4'], 1)).net / ((10 : Int) : ℚ)) := by
  have hmem : mkRow [sampleTx] [sampleHc] (['2','0','2','4'], 1)
      ∈ fullSummary [sampleTx] [sampleHc] :=
    List.mem_map_of_mem _ (by decide)
  exact ((C2_per_head_normalization [sampleTx] [sampleHc] (by decide) _ hmem).2.1)
    10 (by decide) (by decide)

/-- C8: degenerate selections are defined empty results, not errors: an
empty year selection filters to an empty frame, and fewer than two
selected years give an empty year-over-year series (the comparison is
never attempted). -/
theorem C8_degenerate_selection (df : List Transaction) (rows : List Row)
    (sel : List (List Char)) (hsel : sel.length < 2) :
    filterByYear df [] = [] ∧ yoySeries rows sel = [] := by
  constructor
  · rw [filterByYear]
    simp
  · rw [yoySeries, if_pos hsel]

theorem C8_degenerate_selection_witness :
    filterByYear [sampleTx] [] = []
    ∧ yoySeries [] [['2','0','2','4']] = [] :=
  C8_degenerate_selection [sampleTx] [] [['2','0','2','4']] (by decide)

theorem find?_map_preserve (f : HRecord → HRecord) (hf : ∀ r, (f r).month = r.month)
    (tbl : List HRecord) (p : List Char → Bool) :
    (tbl.map f).find? (fun r => p r.month) = (tbl.find? (fun r => p r.month)).map f := by
  induction tbl with
  | nil => rfl
  | cons r tbl ih =>
    rw [List.map_cons, List.find?_cons, List.find?_cons, hf r]
    cases hp : p r.month
    · simpa [hp] using ih
    · simp [hp]

theorem month_mem_iff_countP (tbl : List HRecord) (k : List Char) :
    k ∈ tbl.map HRecord.month ↔ 0 < tbl.countP (fun r => decide (r.month = k)) := by
  rw [List.countP_pos_iff, List.mem_map]
  constructor
  · rintro ⟨r, hr, hrk⟩
    exact ⟨r, hr, by simp [hrk]⟩
  · rintro ⟨r, hr, hrk⟩
    exact ⟨r, hr, of_decide_eq_true hrk⟩

/-- C9: the headcount store keeps at most one row per month key under
upserts: from a uniquely keyed table, the upsert keeps the table uniquely
keyed; the upserted month's row becomes exactly the new record; every
other month's row is unchanged; and the table keeps its length when the
month already existed while an absent month appends exactly one new row. -/
theorem C9_upsert_headcount (tbl : List HRecord) (k : List Char) (v : Int) (n : String)
    (hu : uniqueMonths tbl) :
    uniqueMonths (upsertHeadcount tbl k v n)
    ∧ lookupRec (upsertHeadcount tbl k v n) k = some ⟨k, v, n⟩
    ∧ (∀ k', k' ≠ k → lookupRec (upsertHeadcount tbl k v n) k' = lookupRec tbl k')
    ∧ (k ∈ tbl.map HRecord.month → (upsertHeadcount tbl k v n).length = tbl.length)
    ∧ (k ∉ tbl.map HRecord.month → upsertHeadcount tbl k v n = tbl ++ [⟨k, v, n⟩]) := by
  by_cases hex : 0 < tbl.countP (fun r => decide (r.month = k))
  · have hup : upsertHeadcount tbl k v n
        = tbl.map (fun r => if r.month = k then { r with headcount := v, note := n } else r) := by
      rw [upsertHeadcount, if_pos hex]
    have hf : ∀ r : HRecord,
        ((fun r : HRecord => if r.month = k then { r with headcount := v, note := n } else r)
          r).month = r.month := by
      intro r
      by_cases h : r.month = k
      · simp [h]
      · simp [h]
    have hmonths : (upsertHeadcount tbl k v n).map HRecord.month = tbl.map HRecord.month := by
      rw [hup, List.map_map]
      exact List.map_congr_left (fun r _ => hf r)
    refine ⟨?_, ?_, ?_, ?_, ?_⟩
    · rw [uniqueMonths, hmonths]
      exact hu
    · rw [lookupRec, hup, find?_map_preserve _ hf tbl (fun mo => decide (mo = k))]
      obtain ⟨r0, hfind⟩ := Option.isSome_iff_exists.mp
        (List.find?_isSome.mpr (by
          obtain ⟨r, hr, hrk⟩ := List.countP_pos_iff.mp hex
          exact ⟨r, hr, hrk⟩))
      rw [hfind]
      have hr0k : r0.month = k := by
        have h1 := List.find?_some hfind
        exact of_decide_eq_true h1
      simp only [Option.map_some', if_pos hr0k]
      cases r0
      simp_all
    · intro k' hk'
      rw [lookupRec, lookupRec, hup, find?_map_preserve _ hf tbl (fun mo => decide (mo = k'))]
      cases hfind : tbl.find? (fun r => decide (r.month = k')) with
      | none => rfl
      | some r1 =>
        have hr1 : r1.month = k' := by
          have h1 := List.find?_some hfind
          exact of_decide_eq_true h1
        simp [if_neg (hr1 ▸ hk')]
    · intro _
      rw [hup, List.length_map]
    · intro habs
      exact absurd ((month_mem_iff_countP tbl k).mpr hex) habs
  · have hup : upsertHeadcount tbl k v n = tbl ++ [⟨k, v, n⟩] := by
      rw [upsertHeadcount, if_neg hex]
    have hnomem : k ∉ tbl.map HRecord.month := fun hmem =>
      hex ((month_mem_iff_countP tbl k).mp hmem)
    have hnone : tbl.find? (fun r => decide (r.month = k)) = none := by
      rw [List.find?_eq_none]
      intro r hr hrk
      exact hnomem (List.mem_map.mpr ⟨r, hr, of_decide_eq_true hrk⟩)
    refine ⟨?_, ?_, ?_, ?_, ?_⟩
    · rw [uniqueMonths, hup, List.map_append]
      rw [List.nodup_append]
      refine ⟨hu, List.nodup_singleton _, ?_⟩
      intro a ha hb
      rw [List.map_singleton, List.mem_singleton] at hb
      subst hb
      exact hnomem ha
    · rw [lookupRec, hup, List.find?_append, hnone]
      simp
    · intro k' hk'
      rw [lookupRec, lookupRec, hup, List.find?_append]
      have : List.find? (fun r => decide (r.month = k')) [(⟨k, v, n⟩ : HRecord)] = none := by
        simp [Ne.symm hk']
      rw [this]
      cases tbl.find? (fun r => decide (r.month = k')) <;> rfl
    · intro hmem
      exact absurd hmem hnomem
    · intro _
      exact hup

theorem C9_upsert_headcount_witness :
    uniqueMonths (upsertHeadcount [sampleHc] (['2','0','2','4','-','0','1']) 12 "up")
    ∧ lookupRec (upsertHeadcount [sampleHc] (['2','0','2','4','-','0','1']) 12 "up")
        (['2','0','2','4','-','0','1']) = some ⟨['2','0','2','4','-','0','1'], 12, "up"⟩
    ∧ lookupRec (upsertHeadcount [sampleHc] (['2','0','2','4','-','0','1']) 12 "up")
        (['2','0','2','4','-','0','2']) = lookupRec [sampleHc] (['2','0','2','4','-','0','2'])
    ∧ (upsertHeadcount [sampleHc] (['2','0','2','4','-','0','1']) 12 "up").length
        = [sampleHc].length :=
  ⟨(C9_upsert_headcount [sampleHc] _ 12 "up" (by decide)).1,
   (C9_upsert_headcount [sampleHc] _ 12 "up" (by decide)).2.1,
   (C9_upsert_headcount [sampleHc] _ 12 "up" (by decide)).2.2.1 _ (by decide),
   (C9_upsert_headcount [sampleHc] _ 12 "up" (by decide)).2.2.2.1 (by decide)⟩

/-- C3: with at least two selected years, current and prior being the two
most recent of the sorted selection, the year-over-year series contains
the pair (m, p) exactly when month m is present in both years' summary
rows with a nonzero prior-year net balance and
p = (current_net / prior_net − 1) × 100; a month whose prior net balance
is 0 or absent is therefore absent from the series, with no error and no
0% or infinite point. -/
theorem C3_yoy_series (rows : List Row) (sel : List (List Char))
    (hsel : 2 ≤ sel.length) (m : Nat) (p : ℚ) :
    (m, p) ∈ yoySeries rows sel ↔
      ∃ cr pr, rowOf rows (lastTwo sel).1 m = some cr
        ∧ rowOf rows (lastTwo sel).2 m = some pr
        ∧ pr.net ≠ 0
        ∧ p = (cr.net / pr.net - 1) * 100 := by
  rw [yoySeries, if_neg (by omega)]
  simp only [rowOf, List.mem_filterMap]
  constructor
  · rintro ⟨a, ha, hfa⟩
    cases hprev : (rows.filter (fun r => decide (r.year = (lastTwo sel).2))).find?
        (fun r => decide (r.month_num = a)) with
    | none =>
      rw [hprev] at hfa
      simp at hfa
    | some pr =>
      cases hcur : (rows.filter (fun r => decide (r.year = (lastTwo sel).1))).find?
          (fun r => decide (r.month_num = a)) with
      | none =>
        rw [hprev, hcur] at hfa
        simp at hfa
      | some cr =>
        rw [hprev, hcur] at hfa
        have hfa2 : (if pr.net = 0 then (none : Option (Nat × ℚ))
            else some (a, (cr.net / pr.net - 1) * 100)) = some (m, p) := hfa
        by_cases hz : pr.net = 0
        · rw [if_pos hz] at hfa2
          exact absurd hfa2 (by simp)
        · rw [if_neg hz] at hfa2
          rw [Option.some_inj, Prod.mk.injEq] at hfa2
          obtain ⟨rfl, rfl⟩ := hfa2
          exact ⟨cr, pr, hcur, hprev, hz, rfl⟩
  · rintro ⟨cr, pr, hcur, hprev, hz, hp⟩
    refine ⟨m, ?_, ?_⟩
    · have hcrmem := List.mem_of_find?_eq_some hcur
      have hcrm : cr.month_num = m := by
        have h1 := List.find?_some hcur
        exact of_decide_eq_true h1
      have hprmem := List.mem_of_find?_eq_some hprev
      have hprm : pr.month_num = m := by
        have h1 := List.find?_some hprev
        exact of_decide_eq_true h1
      simp only [List.mem_insertionSort, List.mem_dedup, List.mem_filter]
      constructor
      · exact List.mem_map.mpr ⟨cr, hcrmem, hcrm⟩
      · exact decide_eq_true (List.mem_map.mpr ⟨pr, hprmem, hprm⟩)
    · rw [hprev, hcur]
      show (if pr.net = 0 then (none : Option (Nat × ℚ))
          else some (m, (cr.net / pr.net - 1) * 100)) = some (m, p)
      rw [if_neg hz, hp]

theorem C3_yoy_series_witness :
    (1, 50) ∈ yoySeries [yoyRowA, yoyRowB] [['2','0','2','3'], ['2','0','2','4']] ↔
      ∃ cr pr,
        rowOf [yoyRowA, yoyRowB] (lastTwo [['2','0','2','3'], ['2','0','2','4']]).1 1 = some cr
        ∧ rowOf [yoyRowA, yoyRowB] (lastTwo [['2','0','2','3'], ['2','0','2','4']]).2 1 = some pr
        ∧ pr.net ≠ 0
        ∧ (50 : ℚ) = (cr.net / pr.net - 1) * 100 :=
  C3_yoy_series [yoyRowA, yoyRowB] [['2','0','2','3'], ['2','0','2','4']] (by decide) 1 50

/-- C4: a forecast point for calendar month m (1 ≤ m ≤ 12) exists exactly
when at least one past-year summary record for m exists — a month with no
history is absent, never zero — and every point for m carries the
unweighted arithmetic mean of the past-year net balances and is realized
exactly when m is at or before the current calendar month; the mean
formula is the same on both sides of the realized split. -/
theorem C4_forecast_series (rows : List Row) (cy : List Char) (cm : Nat)
    (m : Nat) (h1 : 1 ≤ m) (h2 : m ≤ 12) :
    ((∃ q ∈ forecastSeries rows cy cm, q.month = m) ↔ pastNets rows cy m ≠ [])
    ∧ ∀ q ∈ forecastSeries rows cy cm, q.month = m →
        q.projected = (pastNets rows cy m).sum / ((pastNets rows cy m).length : ℚ)
        ∧ (q.is_realized = true ↔ m ≤ cm) := by
  simp only [forecastSeries, List.mem_filterMap, List.mem_range]
  constructor
  · constructor
    · rintro ⟨q, ⟨i, hi, hfi⟩, hqm⟩
      by_cases hval : (((rows.filter (fun r => decide (r.year < cy))).filter
          (fun r => decide (r.month_num = i + 1))).map Row.net).isEmpty = true
      · rw [if_pos hval] at hfi
        exact absurd hfi (by simp)
      · rw [if_neg hval] at hfi
        rw [Option.some_inj] at hfi
        subst hfi
        have him : i + 1 = m := hqm
        subst him
        intro hnil
        rw [pastNets] at hnil
        exact hval (by rw [hnil]; rfl)
    · intro hne
      refine ⟨⟨m, (pastNets rows cy m).sum / ((pastNets rows cy m).length : ℚ),
        decide (m ≤ cm)⟩, ⟨m - 1, by omega, ?_⟩, rfl⟩
      have hm1 : m - 1 + 1 = m := by omega
      rw [hm1]
      rw [if_neg (fun h => hne (by rw [pastNets]; exact List.isEmpty_iff.mp h))]
      rfl
  · rintro q ⟨i, hi, hfi⟩ hqm
    by_cases hval : (((rows.filter (fun r => decide (r.year < cy))).filter
        (fun r => decide (r.month_num = i + 1))).map Row.net).isEmpty = true
    · rw [if_pos hval] at hfi
      exact absurd hfi (by simp)
    · rw [if_neg hval] at hfi
      rw [Option.some_inj] at hfi
      subst hfi
      have him : i + 1 = m := hqm
      subst him
      exact ⟨rfl, by simp⟩

theorem C4_forecast_series_witness :
    ((∃ q ∈ forecastSeries [yoyRowA] (['2','0','2','5']) 6, q.month = 1) ↔
      pastNets [yoyRowA] (['2','0','2','5']) 1 ≠ [])
    ∧ ∀ q ∈ forecastSeries [yoyRowA] (['2','0','2','5']) 6, q.month = 1 →
        q.projected = (pastNets [yoyRowA] (['2','0','2','5']) 1).sum
            / ((pastNets [yoyRowA] (['2','0','2','5']) 1).length : ℚ)
        ∧ (q.is_realized = true ↔ 1 ≤ 6) :=
  C4_forecast_series [yoyRowA] (['2','0','2','5']) 6 1 (by decide) (by decide)

theorem groupFun_perm (ts ts' : List Transaction) (hp : ts.Perm ts') :
    groupFun ts = groupFun ts' := by
  funext q
  obtain ⟨k, ty⟩ := q
  rw [groupFun_eq_amtSum, groupFun_eq_amtSum, amtSum, amtSum]
  exact ((hp.filter _).map _).sum_eq

theorem summaryKeys_perm (ts ts' : List Transaction) (hp : ts.Perm ts') :
    summaryKeys ts = summaryKeys ts' := by
  rw [summaryKeys, summaryKeys]
  refine List.eq_of_perm_of_sorted (r := keyLE) ?_ ?_ ?_
  · exact (List.perm_insertionSort _ _).trans
      (((hp.map sKey).dedup).trans (List.perm_insertionSort _ _).symm)
  · exact List.sorted_insertionSort _ _
  · exact List.sorted_insertionSort _ _

theorem fullSummary_perm (ts ts' : List Transaction) (hs : List HRecord)
    (hp : ts.Perm ts') : fullSummary ts hs = fullSummary ts' hs := by
  rw [fullSummary, fullSummary, summaryKeys_perm ts ts' hp]
  apply List.map_congr_left
  intro k _
  simp only [mkRow, groupFun_perm ts ts' hp]

/-- C5: the report is order-independent: computing it on any permutation of
the transaction snapshot yields an identical report — identical monthly
summary rows (income, expense, net, per-head values included), identical
year-over-year points and identical forecast points. -/
theorem C5_order_independent (ts ts' : List Transaction) (hs : List HRecord)
    (sel : List (List Char)) (cy : List Char) (cm : Nat) (hp : ts.Perm ts') :
    computeReport ts hs sel cy cm = computeReport ts' hs sel cy cm := by
  rw [computeReport, computeReport, fullSummary_perm ts ts' hs hp]

theorem C5_order_independent_witness :
    computeReport [sampleTx, sampleTx2] [sampleHc] [['2','0','2','4']] (['2','0','2','5']) 6
      = computeReport [sampleTx2, sampleTx] [sampleHc] [['2','0','2','4']] (['2','0','2','5']) 6 :=
  C5_order_independent _ _ _ _ _ _ (List.Perm.swap sampleTx2 sampleTx [])

/-- C10: month-key decomposition round-trips: for a well-formed "YYYY-MM"
month string with a two-digit month part, rebuilding
month[:4] + "-" + f"{int(month[5:7]):02d}" (app.py lines 106-113) returns
the original string; consequently every summary row built from such a
transaction's key carries exactly the transaction's month string as its
month_key, so the headcount lookup never misses a well-formed month
because of re-formatting. -/
theorem C10_month_key_roundtrip (cs : List Char) (y1 y2 y3 y4 m1 m2 : Char)
    (hcs : cs = [y1, y2, y3, y4, '-', m1, m2])
    (h1 : m1 ∈ digitChars) (h2 : m2 ∈ digitChars) :
    buildMonthKey (cs.take 4) (strToNat ((cs.drop 5).take 2)) = cs
    ∧ ∀ (ts : List Transaction) (hs : List HRecord) (t : Transaction),
        t ∈ ts → t.month = cs →
        ∀ r ∈ fullSummary ts hs, r.year = txYear t → r.month_num = txMonthNum t →
          r.month_key = t.month := by
  have hmain : buildMonthKey (cs.take 4) (strToNat ((cs.drop 5).take 2)) = cs := by
    subst hcs
    simp only [digitChars] at h1 h2
    simp only [List.take_succ_cons, List.take_zero, List.drop_succ_cons, List.drop_zero,
      buildMonthKey, List.cons_append, List.nil_append, List.cons.injEq, true_and]
    fin_cases h1 <;> fin_cases h2 <;> decide
  refine ⟨hmain, ?_⟩
  intro ts hs t _ htm r hr hy hm
  obtain ⟨k, hk, rfl⟩ := (mem_fullSummary ts hs r).mp hr
  rw [mkRow_month_key]
  rw [mkRow_year] at hy
  rw [mkRow_month_num] at hm
  rw [hy, hm]
  simp only [txYear, txMonthNum]
  rw [htm]
  exact hmain

theorem C10_month_key_roundtrip_witness :
    buildMonthKey ((['2','0','2','4','-','0','7'] : List Char).take 4)
      (strToNat (((['2','0','2','4','-','0','7'] : List Char).drop 5).take 2))
      = ['2','0','2','4','-','0','7'] :=
  (C10_month_key_roundtrip ['2','0','2','4','-','0','7'] '2' '0' '2' '4' '0' '7' rfl
    (by decide) (by decide)).1

/-- C7 counterexample: the engine does not reject a negative-amount
transaction — aggregation runs and produces a summary row whose expense
total is the negative amount itself, with no validation error (the
computation is total). -/
theorem C7_counterexample_no_rejection :
    fullSummary [badTx] [] = [mkRow [badTx] [] (['2','0','2','4'], 1)]
    ∧ (mkRow [badTx] [] (['2','0','2','4'], 1)).expense = -500 := by
  constructor
  · rw [fullSummary, show summaryKeys [badTx] = [(['2','0','2','4'], 1)] from by decide]
    rfl
  · rw [mkRow_expense]
    norm_num [badTx, groupFun, gkey, sKey, txYear, txMonthNum, strToNat,
      show ('0'.toNat - 48) * 10 + ('1'.toNat - 48) = 1 from by decide]

/-- C7 amended: the engine performs no input validation at all: every
record is processed without error — each transaction's (year, month) key
receives a summary row whatever the sign of its amount or its flow type,
and a headcount record with any nonzero headcount, negative included, is
used for the per-head value. -/
theorem C7_no_validation (ts : List Transaction) (hs : List HRecord) :
    (∀ t ∈ ts, ∃ r ∈ fullSummary ts hs, r.year = txYear t ∧ r.month_num = txMonthNum t)
    ∧ (∀ r ∈ fullSummary ts hs, ∀ h : Int, headMap hs r.month_key = some h → h ≠ 0 →
        r.per_head = some (r.net / (h : ℚ))) := by
  constructor
  · intro t ht
    exact ⟨mkRow ts hs (sKey t),
      (mem_fullSummary ts hs _).mpr ⟨sKey t, (mem_summaryKeys ts _).mpr ⟨t, ht, rfl⟩, rfl⟩,
      rfl, rfl⟩
  · intro r hr h hh hz
    obtain ⟨k, hk, rfl⟩ := (mem_fullSummary ts hs r).mp hr
    rw [mkRow_month_key] at hh
    rw [mkRow_per_head, hh]
    simp [perHeadVal, hz]

theorem C7_no_validation_witness :
    (mkRow [badTx] [negHc] (['2','0','2','4'], 1)).per_head
      = some ((mkRow [badTx] [negHc] (['2','0','2','4'], 1)).net / ((-2 : Int) : ℚ)) := by
  have hmem : mkRow [badTx] [negHc] (['2','0','2','4'], 1) ∈ fullSummary [badTx] [negHc] :=
    List.mem_map_of_mem _ (by decide)
  exact (C7_no_validation [badTx] [negHc]).2 _ hmem (-2) (by decide) (by decide)

theorem rne_up (q : ℚ) (n : ℤ) (hfl : ⌊q⌋ = n) (hgt : 1/2 < q - n) : rne q = n + 1 := by
  simp only [rne]
  rw [hfl, if_neg (by linarith), if_pos hgt]

theorem rne_tie_odd (q : ℚ) (n : ℤ) (hfl : ⌊q⌋ = n) (htie : q - n = 1/2)
    (hodd : ¬ n % 2 = 0) : rne q = n + 1 := by
  simp only [rne]
  rw [hfl, if_neg (by rw [htie]; norm_num), if_neg (by rw [htie]; norm_num), if_neg hodd]

/-- C6 at the failing input: binary64 summation of the amounts 0.1 and 0.2
(the doubles nearest 1/10 and 2/10, each written with its binade exponent)
does not produce the exact 3/10 that exact decimal summation gives: the
float sum rounds to 5404319552844596 / 2^54 = 0.30000000000000004…, so
the REAL/float64 pipeline of app.py is not exact decimal or integer-cent
arithmetic. -/
theorem C6_float64_drift :
    fl64 (-4) (1/10) + fl64 (-3) (2/10) ≠ 3/10
    ∧ fl64 (-2) (fl64 (-4) (1/10) + fl64 (-3) (2/10)) = 5404319552844596 / 2 ^ 54
    ∧ fl64 (-2) (fl64 (-4) (1/10) + fl64 (-3) (2/10)) ≠ 3/10 := by
  have hfl : ⌊(36028797018963968/5 : ℚ)⌋ = 7205759403792793 := by
    rw [Int.floor_eq_iff]
    constructor <;> norm_num
  have ha : fl64 (-4) (1/10) = 3602879701896397 / 2 ^ 55 := by
    have he : ((52:ℤ) - (-4)) = ((56:ℕ):ℤ) := by norm_num
    simp only [fl64, he, zpow_natCast]
    have hq : (1/10 : ℚ) * 2 ^ (56:ℕ) = 36028797018963968/5 := by norm_num
    rw [hq, rne_up _ 7205759403792793 hfl (by norm_num)]
    norm_num
  have hb : fl64 (-3) (2/10) = 7205759403792794 / 2 ^ 55 := by
    have he : ((52:ℤ) - (-3)) = ((55:ℕ):ℤ) := by norm_num
    simp only [fl64, he, zpow_natCast]
    have hq : (2/10 : ℚ) * 2 ^ (55:ℕ) = 36028797018963968/5 := by norm_num
    rw [hq, rne_up _ 7205759403792793 hfl (by norm_num)]
    norm_num
  have hsum : fl64 (-4) (1/10) + fl64 (-3) (2/10) = 10808639105689191 / 2 ^ 55 := by
    rw [ha, hb]
    norm_num
  have hc : fl64 (-2) ((10808639105689191 : ℚ) / 2 ^ 55) = 5404319552844596 / 2 ^ 54 := by
    have he : ((52:ℤ) - (-2)) = ((54:ℕ):ℤ) := by norm_num
    simp only [fl64, he, zpow_natCast]
    have hq : (10808639105689191 : ℚ) / 2 ^ 55 * 2 ^ (54:ℕ) = 10808639105689191/2 := by
      norm_num
    have hfl3 : ⌊(10808639105689191/2 : ℚ)⌋ = 5404319552844595 := by
      rw [Int.floor_eq_iff]
      constructor <;> norm_num
    rw [hq, rne_tie_odd _ 5404319552844595 hfl3 (by norm_num) (by decide)]
    norm_num
  refine ⟨?_, ?_, ?_⟩
  · rw [hsum]
    norm_num
  · rw [hsum]
    exact hc
  · rw [hsum, hc]
    norm_num
